import Mathlib

/-!
Shallow embedding of the guard engine of the Groq-SLM-Guardrails-Chat
backend (src/backend): guard-result aggregation, the guard task runner
with its timeout and error synthesis, the verdict normalizer, the
per-guard block ceiling, presentation normalization of reasons, and the
bounded per-session history store.  External library calls of the source
(json.loads, the Ollama chat transport, the thread pool) are abstracted
as explicit parameters or outcome values; everything else is translated
directly from the Python source files.
-/

/-- Python whitespace characters as used by str.strip and the regex
class backslash-s (ASCII part). -/
def pyWsChar (c : Char) : Bool :=
  c == ' ' || c == '\t' || c == '\n' || c == '\r' || c == '\x0b' || c == '\x0c'

/-- Python str.strip: remove leading and trailing whitespace. -/
def pyStrip (s : String) : String :=
  String.mk (((s.toList.dropWhile pyWsChar).reverse.dropWhile pyWsChar).reverse)

/-- Python slice s[:n] by code points. -/
def pyTake (n : Nat) (s : String) : String := String.mk (s.toList.take n)

/-- Python slice s[n:] by code points. -/
def pyDrop (n : Nat) (s : String) : String := String.mk (s.toList.drop n)

/-- Python str.lower, character by character (ASCII case mapping). -/
def pyLower (s : String) : String := String.mk (s.toList.map Char.toLower)

/-- Result from a single guard; src/backend/guards/base.py, class GuardResult. -/
structure GuardResult where
  name : String
  verdict : String
  reason : String := ""
  model : String := ""
deriving DecidableEq, Repr

/-- src/backend/guards/base.py line 86: any result has verdict block. -/
def any_block (results : List GuardResult) : Bool :=
  results.any (fun r => r.verdict == "block")

/-- src/backend/guards/base.py lines 90 to 94: first result whose verdict
is block, scanning in list order. -/
def get_blocking_guard : List GuardResult → Option GuardResult
  | [] => none
  | r :: rest => if r.verdict == "block" then some r else get_blocking_guard rest

/-- Behavior of a guard check function when invoked by run_one inside the
runner (src/backend/guards/base.py lines 50 to 56): it either returns a
GuardResult or raises an exception whose text is msg. -/
inductive FnOutcome where
  | returns (r : GuardResult)
  | raises (msg : String)
deriving DecidableEq

/-- Behavior of one submitted future as observed by the result-collection
loop (src/backend/guards/base.py lines 63 to 81): run_one completed with
some check-function behavior, the per-task timeout fired, or the future
failed with another exception of text msg. -/
inductive FutureOutcome where
  | completes (f : FnOutcome)
  | timesOut
  | failsWith (msg : String)
deriving DecidableEq

/-- src/backend/guards/base.py line 12. -/
def SAFETY_GUARD_NAME : String := "safety"

/-- src/backend/guards/base.py lines 50 to 56: run the check function,
catching any exception and synthesizing a flag result carrying the error
text; on success the model field is filled in. -/
def run_one (name model : String) (f : FnOutcome) : GuardResult :=
  match f with
  | .returns r => ⟨r.name, r.verdict, r.reason, model⟩
  | .raises e => ⟨name, "flag", "Guard error: " ++ e, model⟩

/-- src/backend/guards/base.py lines 63 to 81: fill one result slot from
the outcome of its future, synthesizing the timeout result (block for the
safety task under the block policy, flag with reason Timeout otherwise)
or a flag result carrying the error text. -/
def settle_future (on_safety_timeout name model : String) (out : FutureOutcome) : GuardResult :=
  match out with
  | .completes f => run_one name model f
  | .timesOut =>
      if name = SAFETY_GUARD_NAME ∧ on_safety_timeout = "block" then
        ⟨name, "block", "Safety check timed out; response not verified.", model⟩
      else
        ⟨name, "flag", "Timeout", model⟩
  | .failsWith e => ⟨name, "flag", e, model⟩

/-- src/backend/config.py lines 67 to 70: the configured safety-timeout
policy, read from the config key on_safety_timeout (none models an absent
key, and a falsy empty string also falls back to the default flag). -/
def get_on_safety_timeout (cfg : Option String) : String :=
  if pyLower (pyStrip (match cfg with
      | some s => if s ≠ "" then s else "flag"
      | none => "flag")) = "block"
  then "block" else "flag"

/-- One entry of the task list built by run_guards from guard_fns
(src/backend/guards/base.py lines 35 to 40): the guard name together with
the abstracted behavior of its dispatched future.  The check function
itself is a collaborator call, represented only by its outcome. -/
structure GuardTask where
  name : String
  outcome : FutureOutcome
deriving DecidableEq

/-- src/backend/guards/base.py lines 24 to 83: filter to the enabled
guards, return the empty list when no task remains, and otherwise fill
one result slot per task in task order.  The model of each task comes
from get_guard_model, abstracted as modelOf; assigning by slot index
makes the result independent of completion order, which is why a plain
map is a faithful model of the indexed placeholder list; the final
filtering of None placeholders in the source removes nothing because
every branch of the collection loop fills its slot. -/
def run_guards (enabled : String → Bool) (modelOf : String → String)
    (on_safety_timeout : String) (guard_fns : List GuardTask) : List GuardResult :=
  let tasks := guard_fns.filter (fun t => enabled t.name)
  if tasks.isEmpty then []
  else tasks.map (fun t => settle_future on_safety_timeout t.name (modelOf t.name) t.outcome)

/-- Python str.split on the newline separator: accumulator-based split
that keeps empty pieces and always returns at least one piece. -/
def splitNLAux : List Char → List Char → List (List Char)
  | [], acc => [acc.reverse]
  | c :: rest, acc =>
      if c == '\n' then acc.reverse :: splitNLAux rest []
      else splitNLAux rest (c :: acc)

def pySplitNL (s : String) : List String := (splitNLAux s.toList []).map String.mk

/-- Python newline join of a list of strings. -/
def pyJoinNL (ls : List String) : String :=
  String.mk (List.intercalate ['\n'] (ls.map String.toList))

/-- A Python value stored in a parsed JSON object, as far as the verdict
parser observes it: either a string, or some other value with a given
truthiness and str rendering. -/
inductive PyVal where
  | str (s : String)
  | other (truthy : Bool) (rendered : String)

/-- A parsed JSON object: lookup by key as Python dict.get, with none
meaning the key is absent. -/
structure JsonObj where
  get : String → Option PyVal

def pyTruthy : Option PyVal → Bool
  | none => false
  | some (.str s) => s != ""
  | some (.other t _) => t

/-- Python or: the left operand when truthy, otherwise the right one. -/
def pyOr (a b : Option PyVal) : Option PyVal := if pyTruthy a then a else b

/-- The source _safe_str applied to an arbitrary Python value
(src/backend/guards/ollama_guard.py lines 16 to 23): strings are
stripped, any other value becomes the empty string. -/
def pyValSafeStr : Option PyVal → String
  | some (.str s) => pyStrip s
  | _ => ""

/-- Python str applied to a value. -/
def pyValStr : Option PyVal → String
  | none => "None"
  | some (.str s) => s
  | some (.other _ r) => r

/-- src/backend/guards/ollama_guard.py line 48: the verdict field of the
parsed object with result as fallback through Python or, passed through
_safe_str and lowered. -/
def jsonVerdict (obj : JsonObj) : String :=
  pyLower (pyValSafeStr (pyOr (pyOr (obj.get "verdict") (obj.get "result")) (some (.str ""))))

/-- src/backend/guards/ollama_guard.py lines 50 to 51: the reason field
with explanation as fallback, rendered with str, stripped and truncated
to 200 characters. -/
def jsonReason (obj : JsonObj) : String :=
  pyTake 200 (pyStrip (pyValStr (pyOr (pyOr (obj.get "reason") (obj.get "explanation"))
    (some (.str "")))))

def lbraceChar : Char := Char.ofNat 123

def rbraceChar : Char := Char.ofNat 125

/-- Python str.rfind: index of the last occurrence, if any. -/
def pyRfindIdx (cs : List Char) (c : Char) : Option Nat :=
  (cs.reverse.findIdx? (fun x => x == c)).map (fun i => cs.length - 1 - i)

/-- One past the index of the last closing brace, zero when there is none
(the source computes rfind plus one, and rfind yields minus one when
absent). -/
def braceEnd (cs : List Char) : Nat :=
  match pyRfindIdx cs rbraceChar with
  | none => 0
  | some j => j + 1

/-- src/backend/guards/ollama_guard.py lines 43 to 46: the substring from
the first opening brace to the last closing brace, when both exist in
that order. -/
def jsonSlice (raw : String) : Option String :=
  match raw.toList.findIdx? (fun c => c == lbraceChar) with
  | none => none
  | some start =>
      if start < braceEnd raw.toList then
        some (String.mk ((raw.toList.drop start).take (braceEnd raw.toList - start)))
      else none

def isVerdictWord (s : String) : Bool := s == "pass" || s == "flag" || s == "block"

/-- src/backend/guards/ollama_guard.py lines 42 to 53: the JSON attempt,
abstracting json.loads as the parameter jp, whose none value models every
caught parse failure; yields the verdict and reason when the extracted
verdict is canonical, and nothing otherwise so that control falls through
to the substring fallback. -/
def jsonAttempt (jp : String → Option JsonObj) (raw : String) : Option (String × String) :=
  match jsonSlice raw with
  | none => none
  | some s =>
      match jp s with
      | none => none
      | some obj =>
          if isVerdictWord (jsonVerdict obj) then some (jsonVerdict obj, jsonReason obj)
          else none

/-- Tail of the bare-verdict regex after the verdict word: optional
whitespace, an optional colon, optional whitespace, then the end. -/
def bareTail (cs : List Char) : Bool :=
  match cs.dropWhile pyWsChar with
  | [] => true
  | c :: rest => c == ':' && (rest.dropWhile pyWsChar).isEmpty

/-- src/backend/guards/ollama_guard.py line 65: the line consists of
nothing but a verdict word, optionally followed by a colon, matched
case-insensitively. -/
def isBareVerdictLine (l : String) : Bool :=
  ["pass", "flag", "block"].any (fun w =>
    (pyLower l).toList.take w.length == w.toList &&
    bareTail ((pyLower l).toList.drop w.length))

/-- Python substring test: does the needle occur contiguously in the
haystack (the in operator on str). -/
def occursIn (needle : List Char) : List Char → Bool
  | [] => needle.isEmpty
  | c :: rest => ((c :: rest).take needle.length == needle) || occursIn needle rest

/-- src/backend/guards/ollama_guard.py lines 56 to 62: substring search
for block, then flag, defaulting to pass. -/
def rule3Verdict (raw : String) : String :=
  if occursIn "block".toList (pyLower raw).toList then "block"
  else if occursIn "flag".toList (pyLower raw).toList then "flag"
  else "pass"

/-- src/backend/guards/ollama_guard.py lines 63 to 67: the first stripped
line that is nonempty and not a bare verdict word, truncated. -/
def rule3ReasonA (raw : String) : String :=
  match ((pySplitNL raw).map pyStrip).find?
      (fun l => l != "" && !(isBareVerdictLine l)) with
  | some l => pyTake 200 l
  | none => ""

/-- src/backend/guards/ollama_guard.py lines 68 to 69: fall back to the
whole text when no informative line was found. -/
def rule3Reason (raw : String) : String :=
  if rule3ReasonA raw = "" ∧ raw ≠ "" then pyTake 200 raw else rule3ReasonA raw

/-- The substring fallback of the parser, rules at
src/backend/guards/ollama_guard.py lines 55 to 70. -/
def rule3 (raw : String) : String × String := (rule3Verdict raw, rule3Reason raw)

/-- First line of the stripped text, stripped and lowered
(src/backend/guards/ollama_guard.py lines 34 to 35). -/
def firstLineLower (raw : String) : String :=
  pyLower (pyStrip ((pySplitNL raw).headD ""))

/-- src/backend/guards/ollama_guard.py lines 37 to 38: the remaining
lines joined, stripped, truncated to 200 characters. -/
def rule1Reason (raw : String) : String :=
  if pyStrip (pyJoinNL ((pySplitNL raw).drop 1)) ≠ "" then
    pyTake 200 (pyStrip (pyJoinNL ((pySplitNL raw).drop 1)))
  else ""

/-- src/backend/guards/ollama_guard.py lines 26 to 70, _parse_verdict:
normalize raw classifier text to a canonical verdict and bounded reason,
trying the first-line rule, then the JSON rule, then the substring
fallback.  The json.loads library call is abstracted as jp. -/
def _parse_verdict (jp : String → Option JsonObj) (text : String) : String × String :=
  if isVerdictWord (firstLineLower (pyStrip text)) then
    (firstLineLower (pyStrip text), rule1Reason (pyStrip text))
  else
    match jsonAttempt jp (pyStrip text) with
    | some vr => vr
    | none => rule3 (pyStrip text)

/-- Outcome of the ollama.chat transport call inside call_ollama_guard
(src/backend/guards/ollama_guard.py lines 88 to 104): either the
extracted message text, or a raised transport error with text err. -/
inductive OllamaOutcome where
  | succeeds (text : String)
  | fails (err : String)

/-- src/backend/guards/ollama_guard.py line 12. -/
def DEFAULT_VERDICT : String := "flag"

/-- src/backend/guards/ollama_guard.py line 13. -/
def DEFAULT_REASON : String := "Unclear response"

/-- src/backend/guards/ollama_guard.py lines 73 to 115: call the
classifier and parse its reply.  A transport failure yields flag with the
Ollama error text; a parsed verdict outside the canonical triple (dead
code given the parser guarantee, but present in the source) is downgraded
to flag with the default reason when none was parsed.  The guard name is
normalized by _safe_str with the guard fallback; the model argument only
selects the classifier instance, and the result model field is left empty
by the dataclass default, exactly as in the source. -/
def call_ollama_guard (jp : String → Option JsonObj) (guard_name model : String)
    (out : OllamaOutcome) : GuardResult :=
  match out with
  | .fails e =>
      ⟨if pyStrip guard_name ≠ "" then pyStrip guard_name else "guard",
       DEFAULT_VERDICT, "Ollama error: " ++ e, ""⟩
  | .succeeds text =>
      ⟨if pyStrip guard_name ≠ "" then pyStrip guard_name else "guard",
       if isVerdictWord (_parse_verdict jp (pyStrip text)).1 then
         (_parse_verdict jp (pyStrip text)).1
       else DEFAULT_VERDICT,
       if isVerdictWord (_parse_verdict jp (pyStrip text)).1 then
         (_parse_verdict jp (pyStrip text)).2
       else if (_parse_verdict jp (pyStrip text)).2 ≠ "" then
         (_parse_verdict jp (pyStrip text)).2
       else DEFAULT_REASON,
       ""⟩

/-- src/backend/guards/format_guard.py lines 11 to 16: run the classifier
through the shared call, then downgrade a block verdict to flag; the
fixed system prompt and the user content built from model_response go to
the classifier, which is abstracted by out. -/
def format_guard (jp : String → Option JsonObj)
    (user_message model_response ollama_model : String) (out : OllamaOutcome) : GuardResult :=
  if (call_ollama_guard jp "format" ollama_model out).verdict = "block" then
    ⟨(call_ollama_guard jp "format" ollama_model out).name, "flag",
     if (call_ollama_guard jp "format" ollama_model out).reason ≠ "" then
       (call_ollama_guard jp "format" ollama_model out).reason
     else "Format guard does not block", ""⟩
  else call_ollama_guard jp "format" ollama_model out

/-- src/backend/guards/pii.py lines 10 to 15: same downgrade ceiling as
the format guard, with the pii name and fallback reason. -/
def pii_guard (jp : String → Option JsonObj)
    (user_message model_response ollama_model : String) (out : OllamaOutcome) : GuardResult :=
  if (call_ollama_guard jp "pii" ollama_model out).verdict = "block" then
    ⟨(call_ollama_guard jp "pii" ollama_model out).name, "flag",
     if (call_ollama_guard jp "pii" ollama_model out).reason ≠ "" then
       (call_ollama_guard jp "pii" ollama_model out).reason
     else "PII guard does not block", ""⟩
  else call_ollama_guard jp "pii" ollama_model out

/-- Python str.startswith, by code points. -/
def pyStarts (s p : String) : Bool := s.toList.take p.length == p.toList

/-- src/backend/main.py line 175: the verdict and reason markers stripped
from the front of a displayed guard reason. -/
def verdictMarkers : List String :=
  ["pass.", "pass:", "flag.", "flag:", "block.", "block:", "reason:", "reason."]

/-- The while loop of _normalize_guard_reason (src/backend/main.py lines
176 to 185), with fuel bounding the iterations: every iteration removes a
matched marker of length at least five and strips, so the length strictly
decreases and fuel equal to the length plus one is never exhausted; the
model therefore agrees with the source loop. -/
def stripMarkerLoop : Nat → String → String
  | 0, s => s
  | fuel + 1, s =>
      if s = "" then s
      else
        match verdictMarkers.find? (fun p => pyStarts (pyLower s) p) with
        | some p => stripMarkerLoop fuel (pyStrip (pyDrop p.length s))
        | none => s

/-- src/backend/main.py lines 170 to 186, _normalize_guard_reason: strip
verdict and reason markers for display and truncate to 120 characters. -/
def _normalize_guard_reason (reason : String) : String :=
  if reason = "" then ""
  else
    if (stripMarkerLoop ((pyStrip reason).length + 1) (pyStrip reason)).length > 120 then
      pyTake 120 (stripMarkerLoop ((pyStrip reason).length + 1) (pyStrip reason))
    else stripMarkerLoop ((pyStrip reason).length + 1) (pyStrip reason)

/-- API output shape; src/backend/main.py class GuardResultOut. -/
structure GuardResultOut where
  name : String
  verdict : String
  reason : String
  model : String
deriving DecidableEq, Repr

/-- src/backend/main.py lines 189 to 204: convert one GuardResult to the
API output record, falling back on empty fields, stripping the raw reason
and clamping it to 500 characters before presentation normalization (the
per-result try block never fails in the model since every field is a
string). -/
def _guard_result_out (r : GuardResult) : GuardResultOut where
  name := pyStrip (if r.name ≠ "" then r.name else "guard")
  verdict :=
    if pyStrip (if r.verdict ≠ "" then r.verdict else "flag") ≠ "" then
      pyStrip (if r.verdict ≠ "" then r.verdict else "flag")
    else "flag"
  reason := _normalize_guard_reason (pyTake 500 (pyStrip r.reason))
  model := pyTake 100 (pyStrip r.model)

def _guard_results_out (rs : List GuardResult) : List GuardResultOut :=
  rs.map _guard_result_out

/-- src/backend/session_store.py line 7. -/
def MAX_HISTORY_MESSAGES : Nat := 20

/-- One stored chat message record: role and content. -/
structure Msg where
  role : String
  content : String
deriving DecidableEq, Repr

/-- The in-memory session mapping, a defaultdict from session id to
message list (src/backend/session_store.py line 9); absent keys read as
the empty list. -/
def SessionStore : Type := String → List Msg

def emptySessions : SessionStore := fun _ => []

/-- The body of append_exchange on the message list of one session
(src/backend/session_store.py lines 14 to 19): append the user and
assistant records, then keep only the last MAX_HISTORY_MESSAGES entries
when the bound is exceeded. -/
def userMsg (u : String) : Msg := ⟨"user", u⟩

def asstMsg (a : String) : Msg := ⟨"assistant", a⟩

def trimmedAppend (msgs : List Msg) (u a : String) : List Msg :=
  if (msgs ++ [userMsg u, asstMsg a]).length > MAX_HISTORY_MESSAGES then
    (msgs ++ [userMsg u, asstMsg a]).drop
      ((msgs ++ [userMsg u, asstMsg a]).length - MAX_HISTORY_MESSAGES)
  else msgs ++ [userMsg u, asstMsg a]

/-- src/backend/session_store.py lines 12 to 19: append one exchange to
the session, leaving every other session untouched. -/
def append_exchange (st : SessionStore) (session_id user_message assistant_message : String) :
    SessionStore :=
  fun k =>
    if k = session_id then trimmedAppend (st session_id) user_message assistant_message
    else st k

/-- src/backend/session_store.py lines 22 to 24. -/
def get_history (st : SessionStore) (session_id : String) : List Msg := st session_id

/-- The last n elements of a list. -/
def lastN {α : Type} (n : Nat) (l : List α) : List α := l.drop (l.length - n)

/-- A sequence of append_exchange calls against one session. -/
def applyExchanges (st : SessionStore) (sid : String) : List (String × String) → SessionStore
  | [] => st
  | (u, a) :: rest => applyExchanges (append_exchange st sid u a) sid rest

/-- The untrimmed message sequence of a list of exchanges, in insertion
order. -/
def exchangeMsgs : List (String × String) → List Msg
  | [] => []
  | (u, a) :: rest => userMsg u :: asstMsg a :: exchangeMsgs rest

def elevenExchanges : List (String × String) :=
  (List.range 11).map (fun i => ("u" ++ toString i, "a" ++ toString i))

/-- src/backend/main.py line 48. -/
def BLOCKED_MESSAGE : String := "This response was blocked by a safety check."

/-- API response shape; src/backend/main.py class ChatResponse. -/
structure ChatResponse where
  response : String
  blocked : Bool
  guard_results : List GuardResultOut
  session_id : String
  primary_model : String

/-- The tail of the chat endpoint after the generation call
(src/backend/main.py lines 239 to 281): on skip_guards append the
exchange and return the raw response; otherwise aggregate the guard
results, and on a block verdict return the blocked notice (with the
blocking guard name and reason when the reason is nonempty) without
touching the store, else append the exchange and return the raw
response.  The Groq call, logging and timing are outside this slice. -/
def chat_finish (st : SessionStore) (session_id message raw_response primary_model : String)
    (skip_guards : Bool) (guard_results : List GuardResult) : SessionStore × ChatResponse :=
  if skip_guards then
    (append_exchange st session_id message raw_response,
     ⟨raw_response, false, [], session_id, primary_model⟩)
  else if any_block guard_results then
    (st,
     ⟨(match get_blocking_guard guard_results with
       | some b =>
           if pyStrip b.reason ≠ "" then
             BLOCKED_MESSAGE ++ " (" ++ b.name ++ ": " ++ b.reason ++ ")"
           else BLOCKED_MESSAGE
       | none => BLOCKED_MESSAGE),
      true, _guard_results_out guard_results, session_id, primary_model⟩)
  else
    (append_exchange st session_id message raw_response,
     ⟨raw_response, false, _guard_results_out guard_results, session_id, primary_model⟩)

theorem any_block_eq_true_iff (results : List GuardResult) :
    any_block results = true ↔ ∃ r ∈ results, r.verdict = "block" := by
  simp [any_block]

theorem get_blocking_guard_eq_none (results : List GuardResult)
    (h : ∀ r ∈ results, r.verdict ≠ "block") : get_blocking_guard results = none := by
  induction results with
  | nil => rfl
  | cons r rest ih =>
      have hr : r.verdict ≠ "block" := h r (List.mem_cons_self r rest)
      simp only [get_blocking_guard, beq_iff_eq, if_neg hr]
      exact ih (fun x hx => h x (List.mem_cons_of_mem r hx))

theorem get_blocking_guard_app (pre : List GuardResult) (b : GuardResult)
    (post : List GuardResult) (hpre : ∀ r ∈ pre, r.verdict ≠ "block")
    (hb : b.verdict = "block") :
    get_blocking_guard (pre ++ b :: post) = some b := by
  induction pre with
  | nil => simp [get_blocking_guard, hb]
  | cons r rest ih =>
      have hr : r.verdict ≠ "block" := hpre r (List.mem_cons_self r rest)
      simp only [List.cons_append, get_blocking_guard, beq_iff_eq, if_neg hr]
      exact ih (fun x hx => hpre x (List.mem_cons_of_mem r hx))

theorem exists_first_block (results : List GuardResult)
    (h : ∃ r ∈ results, r.verdict = "block") :
    ∃ pre b post, results = pre ++ b :: post ∧ b.verdict = "block" ∧
      ∀ r ∈ pre, r.verdict ≠ "block" := by
  induction results with
  | nil => simp at h
  | cons r rest ih =>
      by_cases hr : r.verdict = "block"
      · exact ⟨[], r, rest, rfl, hr, by simp⟩
      · have hrest : ∃ x ∈ rest, x.verdict = "block" := by
          rcases h with ⟨x, hx, hxv⟩
          rcases List.mem_cons.mp hx with h1 | h2
          · exact absurd (h1 ▸ hxv) hr
          · exact ⟨x, h2, hxv⟩
        rcases ih hrest with ⟨pre, b, post, heq, hb, hpre⟩
        refine ⟨r :: pre, b, post, by simp [heq], hb, ?_⟩
        intro x hx
        rcases List.mem_cons.mp hx with h1 | h2
        · exact h1 ▸ hr
        · exact hpre x h2

/-- C1: the aggregation blocks iff some result has verdict block; the
blocking result returned by get_blocking_guard is the first block-verdict
result in input order when one exists and none otherwise; results holding
only pass and flag verdicts never block. -/
theorem c1_aggregation (results : List GuardResult) :
    (any_block results = true ↔ ∃ r ∈ results, r.verdict = "block") ∧
    ((∃ r ∈ results, r.verdict = "block") →
      ∃ pre b post, results = pre ++ b :: post ∧ b.verdict = "block" ∧
        (∀ r ∈ pre, r.verdict ≠ "block") ∧
        get_blocking_guard results = some b) ∧
    ((∀ r ∈ results, r.verdict ≠ "block") → get_blocking_guard results = none) ∧
    ((∀ r ∈ results, r.verdict = "pass" ∨ r.verdict = "flag") →
      any_block results = false) := by
  refine ⟨any_block_eq_true_iff results, ?_, get_blocking_guard_eq_none results, ?_⟩
  · intro h
    rcases exists_first_block results h with ⟨pre, b, post, heq, hb, hpre⟩
    exact ⟨pre, b, post, heq, hb, hpre, heq ▸ get_blocking_guard_app pre b post hpre hb⟩
  · intro h
    have : ¬ (any_block results = true) := by
      rw [any_block_eq_true_iff]
      rintro ⟨r, hr, hv⟩
      rcases h r hr with h1 | h1 <;> simp [h1] at hv
    simpa using this

theorem c1_witness :
    any_block [⟨"pii", "flag", "", ""⟩, ⟨"safety", "block", "bad", ""⟩] = true ∧
    get_blocking_guard [⟨"pii", "flag", "", ""⟩, ⟨"safety", "block", "bad", ""⟩] =
      some ⟨"safety", "block", "bad", ""⟩ := by
  constructor
  · exact (c1_aggregation _).1.mpr ⟨⟨"safety", "block", "bad", ""⟩, by simp, rfl⟩
  · have h := (c1_aggregation
      [⟨"pii", "flag", "", ""⟩, ⟨"safety", "block", "bad", ""⟩]).2.1
      ⟨⟨"safety", "block", "bad", ""⟩, by simp, rfl⟩
    rcases h with ⟨pre, b, post, heq, hb, hpre, hget⟩
    rw [hget]
    have : b = ⟨"safety", "block", "bad", ""⟩ := by
      have hmem : b ∈ [⟨"pii", "flag", "", ""⟩, ⟨"safety", "block", "bad", ""⟩] := by
        rw [heq]; simp
      rcases List.mem_cons.mp hmem with h1 | h2
      · rw [h1] at hb; simp at hb
      · simpa using h2
    rw [this]

theorem run_guards_eq_map (enabled : String → Bool) (modelOf : String → String)
    (on_safety_timeout : String) (guard_fns : List GuardTask) :
    run_guards enabled modelOf on_safety_timeout guard_fns =
      (guard_fns.filter (fun t => enabled t.name)).map
        (fun t => settle_future on_safety_timeout t.name (modelOf t.name) t.outcome) := by
  unfold run_guards
  rcases h : (guard_fns.filter (fun t => enabled t.name)) with _ | ⟨t, rest⟩ <;> simp

/-- C2: a timed-out safety task is synthesized as a block result with the
exact timeout reason when the configured policy is block, and as a flag
result with reason Timeout otherwise; a timed-out task of any other name
always gets flag with reason Timeout; and a timeout yields a block
verdict only for the safety task under the block policy. -/
theorem c2_safety_timeout (cfg : Option String) (name model : String) :
    (get_on_safety_timeout cfg = "block" →
      settle_future (get_on_safety_timeout cfg) "safety" model .timesOut =
        ⟨"safety", "block", "Safety check timed out; response not verified.", model⟩) ∧
    (get_on_safety_timeout cfg ≠ "block" →
      get_on_safety_timeout cfg = "flag" ∧
      settle_future (get_on_safety_timeout cfg) "safety" model .timesOut =
        ⟨"safety", "flag", "Timeout", model⟩) ∧
    (name ≠ "safety" →
      settle_future (get_on_safety_timeout cfg) name model .timesOut =
        ⟨name, "flag", "Timeout", model⟩) ∧
    ((settle_future (get_on_safety_timeout cfg) name model .timesOut).verdict = "block" →
      name = "safety" ∧ get_on_safety_timeout cfg = "block") := by
  refine ⟨?_, ?_, ?_, ?_⟩
  · intro h
    simp [settle_future, SAFETY_GUARD_NAME, h]
  · intro h
    have hf : get_on_safety_timeout cfg = "flag" := by
      unfold get_on_safety_timeout at h ⊢
      split at h
      · exact absurd rfl h
      · rename_i hc
        rw [if_neg hc]
    refine ⟨hf, ?_⟩
    rw [hf]
    simp [settle_future, SAFETY_GUARD_NAME]
  · intro h
    simp [settle_future, SAFETY_GUARD_NAME, h]
  · intro h
    simp only [settle_future] at h
    split at h
    · rename_i hc
      exact ⟨hc.1, hc.2⟩
    · have hne : ("flag" : String) ≠ "block" := by decide
      exact absurd h hne

theorem c2_witness :
    settle_future (get_on_safety_timeout (some "block")) "safety" "phi3" .timesOut =
      ⟨"safety", "block", "Safety check timed out; response not verified.", "phi3"⟩ ∧
    settle_future (get_on_safety_timeout (some "flag")) "safety" "phi3" .timesOut =
      ⟨"safety", "flag", "Timeout", "phi3"⟩ ∧
    settle_future (get_on_safety_timeout (some "block")) "topic" "phi3" .timesOut =
      ⟨"topic", "flag", "Timeout", "phi3"⟩ := by
  refine ⟨?_, ?_, ?_⟩
  · exact (c2_safety_timeout (some "block") "safety" "phi3").1 (by decide)
  · exact ((c2_safety_timeout (some "flag") "safety" "phi3").2.1 (by decide)).2
  · exact (c2_safety_timeout (some "block") "topic" "phi3").2.2.1 (by decide)

/-- C6: with no enabled task the runner returns the empty sequence; in
general it returns exactly one result per enabled task, in the same
order, the result in slot i being the settled outcome of task i.  The
source assigns each result to the slot of its own task index, so the
returned order never depends on completion order. -/
theorem c6_run_guards_shape (enabled : String → Bool) (modelOf : String → String)
    (policy : String) (guard_fns : List GuardTask) :
    (guard_fns.filter (fun t => enabled t.name) = [] →
      run_guards enabled modelOf policy guard_fns = []) ∧
    (run_guards enabled modelOf policy guard_fns).length =
      (guard_fns.filter (fun t => enabled t.name)).length ∧
    (∀ (i : Nat) (h : i < (guard_fns.filter (fun t => enabled t.name)).length),
      (run_guards enabled modelOf policy guard_fns)[i]? =
        some (settle_future policy
          ((guard_fns.filter (fun t => enabled t.name)).get ⟨i, h⟩).name
          (modelOf ((guard_fns.filter (fun t => enabled t.name)).get ⟨i, h⟩).name)
          ((guard_fns.filter (fun t => enabled t.name)).get ⟨i, h⟩).outcome)) := by
  refine ⟨?_, ?_, ?_⟩
  · intro h
    simp [run_guards_eq_map, h]
  · simp [run_guards_eq_map]
  · intro i h
    rw [run_guards_eq_map]
    rw [List.getElem?_map]
    rw [List.getElem?_eq_getElem h]
    simp [List.get_eq_getElem]

theorem c6_witness :
    run_guards (fun _ => true) (fun _ => "phi3") "flag"
      [⟨"safety", .completes (.returns ⟨"safety", "pass", "", ""⟩)⟩, ⟨"topic", .timesOut⟩] =
      [⟨"safety", "pass", "", "phi3"⟩, ⟨"topic", "flag", "Timeout", "phi3"⟩] := by
  have h := (c6_run_guards_shape (fun _ => true) (fun _ => "phi3") "flag"
    [⟨"safety", .completes (.returns ⟨"safety", "pass", "", ""⟩)⟩, ⟨"topic", .timesOut⟩]).2.2
  have h0 := h 0 (by decide)
  have h1 := h 1 (by decide)
  have hlen := (c6_run_guards_shape (fun _ => true) (fun _ => "phi3") "flag"
    [⟨"safety", .completes (.returns ⟨"safety", "pass", "", ""⟩)⟩, ⟨"topic", .timesOut⟩]).2.1
  revert h0 h1 hlen
  decide

/-- C7: a task whose check function raises is settled as a flag result
whose reason carries the error text with the Guard error marker, both at
the run_one boundary and in its runner slot; the runner itself never
propagates such an exception because every outcome maps to a GuardResult. -/
theorem c7_errors_to_flag (policy name model e : String) (enabled : String → Bool)
    (modelOf : String → String) (guard_fns : List GuardTask) :
    (run_one name model (.raises e) = ⟨name, "flag", "Guard error: " ++ e, model⟩) ∧
    (settle_future policy name model (.completes (.raises e)) =
      ⟨name, "flag", "Guard error: " ++ e, model⟩) ∧
    (settle_future policy name model (.failsWith e) = ⟨name, "flag", e, model⟩) ∧
    (∀ (i : Nat) (h : i < (guard_fns.filter (fun t => enabled t.name)).length),
      ((guard_fns.filter (fun t => enabled t.name)).get ⟨i, h⟩).outcome =
          .completes (.raises e) →
      (run_guards enabled modelOf policy guard_fns)[i]? =
        some ⟨((guard_fns.filter (fun t => enabled t.name)).get ⟨i, h⟩).name, "flag",
              "Guard error: " ++ e,
              modelOf ((guard_fns.filter (fun t => enabled t.name)).get ⟨i, h⟩).name⟩) := by
  refine ⟨rfl, rfl, rfl, ?_⟩
  intro i h hout
  rw [run_guards_eq_map, List.getElem?_map, List.getElem?_eq_getElem h]
  simp only [List.get_eq_getElem] at hout
  simp [List.get_eq_getElem, hout, settle_future, run_one]

theorem c7_witness :
    run_one "pii" "phi3" (.raises "boom") =
      ⟨"pii", "flag", "Guard error: boom", "phi3"⟩ :=
  (c7_errors_to_flag "flag" "pii" "phi3" "boom" (fun _ => true) (fun _ => "phi3") []).1

theorem pyTake_length_le (n : Nat) (s : String) : (pyTake n s).length ≤ n := by
  show (s.toList.take n).length ≤ n
  rw [List.length_take]
  exact Nat.min_le_left n _

theorem isVerdictWord_iff (s : String) :
    isVerdictWord s = true ↔ s = "pass" ∨ s = "flag" ∨ s = "block" := by
  simp [isVerdictWord, or_assoc]

theorem rule1Reason_length_le (raw : String) : (rule1Reason raw).length ≤ 200 := by
  unfold rule1Reason
  split
  · exact pyTake_length_le 200 _
  · simp

theorem rule3Verdict_cases (raw : String) :
    rule3Verdict raw = "pass" ∨ rule3Verdict raw = "flag" ∨ rule3Verdict raw = "block" := by
  unfold rule3Verdict
  split
  · exact Or.inr (Or.inr rfl)
  · split
    · exact Or.inr (Or.inl rfl)
    · exact Or.inl rfl

theorem rule3ReasonA_length_le (raw : String) : (rule3ReasonA raw).length ≤ 200 := by
  unfold rule3ReasonA
  split
  · exact pyTake_length_le 200 _
  · simp

theorem rule3Reason_length_le (raw : String) : (rule3Reason raw).length ≤ 200 := by
  unfold rule3Reason
  split
  · exact pyTake_length_le 200 _
  · exact rule3ReasonA_length_le raw

theorem jsonAttempt_fields (jp : String → Option JsonObj) (raw : String)
    (vr : String × String) (h : jsonAttempt jp raw = some vr) :
    isVerdictWord vr.1 = true ∧ vr.2.length ≤ 200 := by
  unfold jsonAttempt at h
  split at h
  · cases h
  · split at h
    · cases h
    · split at h
      · rename_i hword
        cases h
        exact ⟨hword, pyTake_length_le 200 _⟩
      · cases h

theorem jsonAttempt_of_parts (jp : String → Option JsonObj) (raw s : String)
    (obj : JsonObj) (hs : jsonSlice raw = some s) (hjp : jp s = some obj)
    (hword : isVerdictWord (jsonVerdict obj) = true) :
    jsonAttempt jp raw = some (jsonVerdict obj, jsonReason obj) := by
  unfold jsonAttempt
  simp [hs, hjp, hword]

theorem parse_verdict_canonical (jp : String → Option JsonObj) (text : String) :
    (_parse_verdict jp text).1 = "pass" ∨ (_parse_verdict jp text).1 = "flag" ∨
      (_parse_verdict jp text).1 = "block" := by
  unfold _parse_verdict
  split
  · rename_i h
    exact (isVerdictWord_iff _).mp h
  · rcases hj : jsonAttempt jp (pyStrip text) with _ | vr
    · simp only [hj]
      exact rule3Verdict_cases _
    · simp only [hj]
      exact (isVerdictWord_iff _).mp (jsonAttempt_fields jp _ vr hj).1

theorem parse_verdict_reason_le (jp : String → Option JsonObj) (text : String) :
    (_parse_verdict jp text).2.length ≤ 200 := by
  unfold _parse_verdict
  cases h : isVerdictWord (firstLineLower (pyStrip text)) with
  | true =>
      simp only [Bool.false_eq_true, reduceIte]
      exact rule1Reason_length_le (pyStrip text)
  | false =>
      simp only [Bool.false_eq_true, reduceIte]
      rcases hj : jsonAttempt jp (pyStrip text) with _ | vr
      · exact rule3Reason_length_le (pyStrip text)
      · exact (jsonAttempt_fields jp (pyStrip text) vr hj).2

/-- C4: the normalizer is total (a Lean function) and for every input
string, with json.loads abstracted as any parser jp, it returns a verdict
that is exactly pass, flag, or block together with a reason of length at
most 200 characters. -/
theorem c4_normalizer_total (jp : String → Option JsonObj) (text : String) :
    ((_parse_verdict jp text).1 = "pass" ∨ (_parse_verdict jp text).1 = "flag" ∨
      (_parse_verdict jp text).1 = "block") ∧
    (_parse_verdict jp text).2.length ≤ 200 :=
  ⟨parse_verdict_canonical jp text, parse_verdict_reason_le jp text⟩

/-- C5: the parsing rules apply in fixed precedence.  Rule 1: a canonical
first line (of the stripped text, itself stripped and lowered) decides
the verdict with the remaining lines, stripped and truncated to 200, as
reason, regardless of everything else.  Rule 2: otherwise a successful
JSON parse of the first-to-last-brace slice whose extracted verdict field
(verdict, falling back to result) is canonical decides the verdict.
Rule 3: otherwise the verdict is block if the word block occurs
case-insensitively, else flag if flag occurs, else pass; in particular
rule 3 yields block only when the word block occurs in the text. -/
theorem c5_precedence (jp : String → Option JsonObj) (text : String) :
    (isVerdictWord (firstLineLower (pyStrip text)) = true →
      _parse_verdict jp text =
        (firstLineLower (pyStrip text), rule1Reason (pyStrip text))) ∧
    (isVerdictWord (firstLineLower (pyStrip text)) = false →
      ∀ s obj, jsonSlice (pyStrip text) = some s → jp s = some obj →
        isVerdictWord (jsonVerdict obj) = true →
        _parse_verdict jp text = (jsonVerdict obj, jsonReason obj)) ∧
    (isVerdictWord (firstLineLower (pyStrip text)) = false →
      jsonAttempt jp (pyStrip text) = none →
      (_parse_verdict jp text).1 =
        (if occursIn "block".toList (pyLower (pyStrip text)).toList then "block"
         else if occursIn "flag".toList (pyLower (pyStrip text)).toList then "flag"
         else "pass")) ∧
    (occursIn "block".toList (pyLower (pyStrip text)).toList = false →
      isVerdictWord (firstLineLower (pyStrip text)) = false →
      jsonAttempt jp (pyStrip text) = none →
      (_parse_verdict jp text).1 ≠ "block") := by
  refine ⟨?_, ?_, ?_, ?_⟩
  · intro h
    unfold _parse_verdict
    rw [h]
    simp only [Bool.false_eq_true, reduceIte]
  · intro h s obj hs hjp hword
    have hatt := jsonAttempt_of_parts jp (pyStrip text) s obj hs hjp hword
    unfold _parse_verdict
    rw [h]
    simp only [Bool.false_eq_true, reduceIte]
    rw [hatt]
  · intro h hnone
    unfold _parse_verdict
    rw [h]
    simp only [Bool.false_eq_true, reduceIte]
    rw [hnone]
    rfl
  · intro hb h hnone
    unfold _parse_verdict
    rw [h]
    simp only [Bool.false_eq_true, reduceIte]
    rw [hnone]
    show rule3Verdict (pyStrip text) ≠ "block"
    unfold rule3Verdict
    rw [hb]
    simp only [Bool.false_eq_true, reduceIte]
    cases hf : occursIn "flag".toList (pyLower (pyStrip text)).toList with
    | true =>
        simp only [Bool.false_eq_true, reduceIte]
        decide
    | false =>
        simp only [Bool.false_eq_true, reduceIte]
        decide

theorem c5_witness :
    _parse_verdict (fun _ => none) "PASS\nall good" = ("pass", "all good") := by
  have h := (c5_precedence (fun _ => none) "PASS\nall good").1 (by decide)
  rw [h]
  decide

theorem format_guard_not_block (jp : String → Option JsonObj)
    (u m om : String) (out : OllamaOutcome) :
    (format_guard jp u m om out).verdict ≠ "block" := by
  unfold format_guard
  split
  · intro h
    have hne : ("flag" : String) ≠ "block" := by decide
    exact absurd h hne
  · rename_i hc
    exact hc

theorem pii_guard_not_block (jp : String → Option JsonObj)
    (u m om : String) (out : OllamaOutcome) :
    (pii_guard jp u m om out).verdict ≠ "block" := by
  unfold pii_guard
  split
  · intro h
    have hne : ("flag" : String) ≠ "block" := by decide
    exact absurd h hne
  · rename_i hc
    exact hc

/-- C3: the format and pii guards never return a block verdict, whatever
the classifier transport outcome and raw text are, and any result list
built only from outputs of these two guards never blocks. -/
theorem c3_format_pii_never_block (jp : String → Option JsonObj)
    (u m om : String) (out : OllamaOutcome) :
    (format_guard jp u m om out).verdict ≠ "block" ∧
    (pii_guard jp u m om out).verdict ≠ "block" ∧
    (∀ results : List GuardResult,
      (∀ r ∈ results,
        (∃ jp2 u2 m2 om2 out2, r = format_guard jp2 u2 m2 om2 out2) ∨
        (∃ jp2 u2 m2 om2 out2, r = pii_guard jp2 u2 m2 om2 out2)) →
      any_block results = false) := by
  refine ⟨format_guard_not_block jp u m om out, pii_guard_not_block jp u m om out, ?_⟩
  intro results h
  have : ¬ (any_block results = true) := by
    rw [any_block_eq_true_iff]
    rintro ⟨r, hr, hv⟩
    rcases h r hr with ⟨jp2, u2, m2, om2, out2, heq⟩ | ⟨jp2, u2, m2, om2, out2, heq⟩
    · exact format_guard_not_block jp2 u2 m2 om2 out2 (heq ▸ hv)
    · exact pii_guard_not_block jp2 u2 m2 om2 out2 (heq ▸ hv)
  simpa using this

theorem c3_witness :
    any_block
      [format_guard (fun _ => none) "hi" "block\nbad" "phi3" (.succeeds "block\nbad"),
       pii_guard (fun _ => none) "hi" "block\nbad" "phi3" (.succeeds "block\nbad")] = false := by
  refine (c3_format_pii_never_block (fun _ => none) "hi" "block\nbad" "phi3"
      (.succeeds "block\nbad")).2.2 _ ?_
  intro r hr
  rcases List.mem_cons.mp hr with h | h
  · exact Or.inl ⟨fun _ => none, "hi", "block\nbad", "phi3", .succeeds "block\nbad", h⟩
  · exact Or.inr ⟨fun _ => none, "hi", "block\nbad", "phi3", .succeeds "block\nbad",
      List.mem_singleton.mp h⟩

theorem normalize_guard_reason_length_le (r : String) :
    (_normalize_guard_reason r).length ≤ 120 := by
  unfold _normalize_guard_reason
  split
  · simp
  · split
    · exact pyTake_length_le 120 _
    · rename_i hgt
      omega

set_option maxRecDepth 4000 in
/-- C8 counterexample: a GuardResult synthesized by run_one from a check
function exception carries the full error text in its reason, so a long
enough exception message yields a reason longer than 200 characters at
creation, refuting the claimed bound for error synthesis. -/
theorem c8_counterexample :
    200 < (run_one "safety" "phi3"
      (.raises (String.mk (List.replicate 201 'a')))).reason.length := by
  decide

/-- C8 amended: reasons produced by the verdict normalizer and by timeout
synthesis are at most 200 characters at creation, error-synthesized
reasons carry the unbounded error text, and the reason carried in the API
output record is always at most 120 characters after presentation
normalization. -/
theorem c8_reason_bounds (jp : String → Option JsonObj)
    (text policy name model r : String) (g : GuardResult) :
    (_parse_verdict jp text).2.length ≤ 200 ∧
    (settle_future policy name model .timesOut).reason.length ≤ 200 ∧
    (_normalize_guard_reason r).length ≤ 120 ∧
    (_guard_result_out g).reason.length ≤ 120 := by
  refine ⟨parse_verdict_reason_le jp text, ?_, normalize_guard_reason_length_le r, ?_⟩
  · simp only [settle_future]
    split
    · have h45 :
          ("Safety check timed out; response not verified." : String).length ≤ 200 := by
        decide
      exact h45
    · have h7 : ("Timeout" : String).length ≤ 200 := by decide
      exact h7
  · exact normalize_guard_reason_length_le _

theorem lastN_lastN_append {α : Type} (n : Nat) (a b : List α) :
    lastN n (lastN n a ++ b) = lastN n (a ++ b) := by
  unfold lastN
  rcases le_or_lt a.length n with h | h
  · have h0 : a.length - n = 0 := Nat.sub_eq_zero_of_le h
    rw [h0, List.drop_zero]
  · have hlen : (a.drop (a.length - n)).length = n := by
      rw [List.length_drop]
      omega
    rw [List.length_append, List.length_append, hlen]
    have e1 : n + b.length - n = b.length := by omega
    rw [e1]
    rw [List.drop_append_eq_append_drop, List.drop_append_eq_append_drop]
    rw [List.drop_drop, hlen]
    congr 1
    · congr 1
      omega
    · congr 1
      omega

theorem trimmedAppend_eq_lastN (msgs : List Msg) (u a : String) :
    trimmedAppend msgs u a =
      lastN MAX_HISTORY_MESSAGES (msgs ++ [userMsg u, asstMsg a]) := by
  unfold trimmedAppend lastN
  split
  · rfl
  · rename_i h
    have h0 :
        (msgs ++ [userMsg u, asstMsg a]).length - MAX_HISTORY_MESSAGES = 0 := by
      omega
    rw [h0, List.drop_zero]

theorem applyExchanges_spec (sid : String) (xs : List (String × String)) :
    ∀ (st : SessionStore) (m0 : List Msg), st sid = lastN MAX_HISTORY_MESSAGES m0 →
      get_history (applyExchanges st sid xs) sid =
        lastN MAX_HISTORY_MESSAGES (m0 ++ exchangeMsgs xs) := by
  induction xs with
  | nil =>
      intro st m0 h
      show st sid = _
      rw [h, exchangeMsgs, List.append_nil]
  | cons p rest ih =>
      rcases p with ⟨u, a⟩
      intro st m0 h
      have hnew : (append_exchange st sid u a) sid =
          lastN MAX_HISTORY_MESSAGES (m0 ++ [userMsg u, asstMsg a]) := by
        show (if sid = sid then trimmedAppend (st sid) u a else st sid) = _
        rw [if_pos (rfl : sid = sid), h, trimmedAppend_eq_lastN]
        exact lastN_lastN_append _ m0 _
      have hrec := ih (append_exchange st sid u a)
        (m0 ++ [userMsg u, asstMsg a]) hnew
      show get_history (applyExchanges (append_exchange st sid u a) sid rest) sid = _
      rw [hrec, List.append_assoc]
      rfl

/-- C9: starting from an empty store, any sequence of append_exchange
calls leaves get_history equal to the last MAX_HISTORY_MESSAGES entries
of the full insertion-ordered message sequence, hence at most 20
messages with the oldest trimmed; in particular after 11 exchanges (22
messages) exactly the most recent 20 remain, the oldest exchange being
dropped with order preserved. -/
theorem c9_session_history (sid : String) (xs : List (String × String)) :
    (get_history (applyExchanges emptySessions sid xs) sid =
      lastN MAX_HISTORY_MESSAGES (exchangeMsgs xs)) ∧
    (get_history (applyExchanges emptySessions sid xs) sid).length ≤ MAX_HISTORY_MESSAGES ∧
    (get_history (applyExchanges emptySessions "s" elevenExchanges) "s" =
      exchangeMsgs (elevenExchanges.drop 1)) ∧
    (exchangeMsgs (elevenExchanges.drop 1)).length = MAX_HISTORY_MESSAGES := by
  have hmain := applyExchanges_spec sid xs emptySessions [] rfl
  rw [List.nil_append] at hmain
  refine ⟨hmain, ?_, ?_, ?_⟩
  · rw [hmain]
    unfold lastN
    rw [List.length_drop]
    omega
  · have h11 := applyExchanges_spec "s" elevenExchanges emptySessions [] rfl
    rw [List.nil_append] at h11
    rw [h11]
    decide
  · decide

/-- C10: a blocked disposition leaves the session store unchanged, so
get_history is identical before and after the request for every session;
history is appended exactly on the non-blocked path and on the
guards-skipped path. -/
theorem c10_blocked_no_append (st : SessionStore)
    (sid msg resp pm : String) (gr : List GuardResult) :
    (any_block gr = true →
      (chat_finish st sid msg resp pm false gr).1 = st ∧
      ∀ s, get_history ((chat_finish st sid msg resp pm false gr).1) s =
        get_history st s) ∧
    (any_block gr = false →
      (chat_finish st sid msg resp pm false gr).1 = append_exchange st sid msg resp) ∧
    ((chat_finish st sid msg resp pm true gr).1 = append_exchange st sid msg resp) := by
  refine ⟨?_, ?_, rfl⟩
  · intro h
    have hfin : (chat_finish st sid msg resp pm false gr).1 = st := by
      show ((if false = true then _ else if any_block gr then _ else _ :
          SessionStore × ChatResponse)).1 = st
      rw [h]
      simp only [Bool.false_eq_true, reduceIte]
    exact ⟨hfin, fun s => by rw [hfin]⟩
  · intro h
    show ((if false = true then _ else if any_block gr then _ else _ :
        SessionStore × ChatResponse)).1 = _
    rw [h]
    simp only [Bool.false_eq_true, reduceIte]

theorem c10_witness :
    (chat_finish emptySessions "s" "hi" "bad" "groq" false
      [⟨"safety", "block", "unsafe", "phi3"⟩]).1 = emptySessions ∧
    get_history
      ((chat_finish emptySessions "s" "hi" "bad" "groq" false
        [⟨"safety", "block", "unsafe", "phi3"⟩]).1) "s" = [] := by
  have h := (c10_blocked_no_append emptySessions "s" "hi" "bad" "groq"
    [⟨"safety", "block", "unsafe", "phi3"⟩]).1 (by decide)
  exact ⟨h.1, h.2 "s"⟩
